import Mathlib

/-!
Shallow embedding of the amqp.node protocol engine
(src/lib/channel.js and src/lib/frame.js), with theorems checking the
natural-language specification against the code.
-/

namespace AmqpNode

/-- A byte (we do not need the 0..255 bound for any claim). -/
abbrev Byte := Nat

/-- A byte buffer. -/
abbrev Bytes := List Byte

/-! ## Message reassembly (channel.js, acceptMessage, lines 144-197)

`acceptMessage` is a trampoline: `this.handleMessage` holds the function for
the next frame, and each call returns the next function.  The possible values
of `this.handleMessage` are `unexpectedFrame`, the `headers` closure and the
`content` closure (with its captured `remaining` and `buffers` locals); we
represent them as an inductive state. -/

/-- The content of a completed message: either the single body frame payload
used directly (`message.content = f.content`, no concatenation buffer), or
the result of `Buffer.concat(buffers)` over the accumulated chunks. -/
inductive Content where
  | single (payload : Bytes)
  | concat (chunks : List Bytes)
deriving Repr, DecidableEq

/-- The bytes of the content as seen by the application. -/
def Content.bytes : Content → Bytes
  | .single p => p
  | .concat cs => cs.flatten

/-- The value of `this.handleMessage`: `unexpectedFrame`, the `headers`
closure (holding the fields of the triggering BasicDeliver), or the
`content` closure (holding the captured `remaining` and `buffers` locals;
`remaining` is an Int because the JS code lets it go negative before
checking). -/
inductive MsgState where
  | unexpected
  | headers (dfields : Nat)
  | content (dfields pfields : Nat) (remaining : Int)
      (buffers : Option (List Bytes))
deriving Repr, DecidableEq

/-- A message handed to the continuation: the deliver fields, the
properties from the header frame, and the assembled content. -/
structure Emit where
  dfields : Nat
  pfields : Nat
  content : Content
deriving Repr, DecidableEq

/-- The frames fed to the message trampoline by `C.handle`:
a BasicDeliver method frame, a BasicProperties header frame (carrying
`size`, the declared bodySize), or a content frame (id `undefined`,
carrying `f.content`). -/
inductive MFrame where
  | deliver (fields : Nat)
  | props (fields : Nat) (size : Int)
  | body (payload : Bytes)
deriving Repr, DecidableEq

/-- Result of running the trampoline one step: the new value of
`this.handleMessage`, messages emitted, and the thrown error if any.
When a step throws, `state` is the value `this.handleMessage` is left
with (the assignment is skipped, but in the over-delivery case the
captured `remaining` was already decremented before the throw). -/
structure MsgRes where
  state : MsgState
  emits : List Emit
  err : Option String
deriving Repr, DecidableEq

/-- One step of the message trampoline, following `C.handle`'s first three
cases: a BasicDeliver frame sets `handleMessage = acceptDelivery` and falls
through to invoke it (yielding the `headers` state); header and content
frames are dispatched to the current closure.  Faithful to
`unexpectedFrame`, `headers` and `content` in src/lib/channel.js. -/
def msgStep (hm : MsgState) (f : MFrame) : MsgRes :=
  match f with
  | .deliver df => ⟨.headers df, [], none⟩
  | .props pfields size =>
    match hm with
    | .headers df => ⟨.content df pfields size none, [], none⟩
    | .unexpected => ⟨hm, [], some "Unannounced message frame"⟩
    | .content _ _ _ _ => ⟨hm, [], some "Expected content frame after headers"⟩
  | .body payload =>
    match hm with
    | .unexpected => ⟨hm, [], some "Unannounced message frame"⟩
    | .headers _ => ⟨hm, [], some "Expected headers frame after delivery"⟩
    | .content df pf remaining buffers =>
      let r := remaining - payload.length
      if r = 0 then
        match buffers with
        | some bs => ⟨.unexpected, [⟨df, pf, .concat (bs ++ [payload])⟩], none⟩
        | none => ⟨.unexpected, [⟨df, pf, .single payload⟩], none⟩
      else if r < 0 then
        ⟨.content df pf r buffers, [], some "Too much content sent!"⟩
      else
        match buffers with
        | some bs => ⟨.content df pf r (some (bs ++ [payload])), [], none⟩
        | none => ⟨.content df pf r (some [payload]), [], none⟩

/-- Run the trampoline over a sequence of frames, halting at the first
thrown error (a throw propagates to the connection and no further frame is
dispatched to this closure). -/
def runMsg (hm : MsgState) (fs : List MFrame) : MsgRes :=
  match fs with
  | [] => ⟨hm, [], none⟩
  | f :: rest =>
    let r := msgStep hm f
    match r.err with
    | some e => ⟨r.state, r.emits, some e⟩
    | none =>
      let r2 := runMsg r.state rest
      ⟨r2.state, r.emits ++ r2.emits, r2.err⟩

/-- Sum of the payload lengths of a chunk list, as an Int (to compare with
the captured `remaining`). -/
def bodyLen (cs : List Bytes) : Int := ((cs.map List.length).sum : Nat)

/-! ## Channel RPC state (channel.js, Channel / sendOrEnqueue / handle)

A channel holds `this.reply` (the deferred of the outstanding RPC, here an
opaque token), `this.pending` (queued RPCs awaiting their turn) and
`this.handleMessage` (the reassembly trampoline above).  Methods and fields
are opaque tokens, since their encoding lives in the generated defs module. -/

/-- An entry of `this.pending`: `{method, fields, reply}` as pushed by
`sendOrEnqueue`. -/
structure PendingSend where
  method : Nat
  fields : Nat
  reply : Nat
deriving Repr, DecidableEq

/-- The mutable state of a `Channel` (channel.js, constructor lines 36-45). -/
structure Channel where
  reply : Option Nat
  pending : List PendingSend
  handleMessage : MsgState
deriving Repr, DecidableEq

/-- Frames as dispatched on by `C.handle` (switch on `f.id`): the three
message-trampoline cases, the recognised notifications, ChannelClose
(carrying `f.replyText`), and the default case — any other id is treated as
the reply to the outstanding RPC. -/
inductive HFrame where
  | msg (f : MFrame)
  | basicAck
  | basicNack
  | channelClose (replyText : String)
  | basicCancel
  | basicReturn
  | reply (id : Nat) (fields : Nat)
deriving Repr, DecidableEq

/-- Observable actions performed by a channel step, in program order:
`sendImmediately` of a method, `sendImmediately(ChannelCloseOk)`,
resolving or rejecting a deferred (rejection payload `none` models the
JavaScript `undefined` when the error variable was never assigned), and
handing a reassembled message to the continuation. -/
inductive Effect where
  | sendMethod (method : Nat) (fields : Nat)
  | sendChannelCloseOk
  | resolve (reply : Nat) (f : HFrame)
  | reject (reply : Nat) (e : Option String)
  | emitMessage (m : Emit)
deriving Repr, DecidableEq

/-- Result of one channel operation: the resulting state, the effects
performed (in order), and the error thrown, if any.  Effects listed were
performed before the throw. -/
structure StepRes where
  state : Channel
  effects : List Effect
  err : Option String
deriving Repr, DecidableEq

/-- Embedding of `C.sendOrEnqueue` (channel.js lines 79-90): with no reply outstanding,
assert the pending queue is empty (the assert throws otherwise, before any
state change), occupy the reply slot and send immediately; otherwise append
to the pending queue. -/
def sendOrEnqueue (s : Channel) (method fields reply : Nat) : StepRes :=
  match s.reply with
  | none =>
    if s.pending = [] then
      ⟨{ s with reply := some reply }, [.sendMethod method fields], none⟩
    else
      ⟨s, [], some "AssertionError: this.pending.length === 0"⟩
  | some _ =>
    ⟨{ s with pending := s.pending ++ [⟨method, fields, reply⟩] }, [], none⟩

/-- Modelled from the spec: `this.cleanup()` is invoked by `C.handle` on
ChannelClose (channel.js line 236) but `C.cleanup` is not defined in
src/lib/channel.js.  Per the spec (section 4.5, remote close), the channel
then reaches the terminal closed state: no in-flight reply, no queued RPCs,
and no further frame acceptance. -/
def cleanup (_s : Channel) : Channel := ⟨none, [], .unexpected⟩

/-- Embedding of `C.handle` (channel.js lines 210-260).  BasicDeliver primes the
trampoline and falls through; content and header frames are fed to it.
BasicAck/BasicNack, BasicCancel and BasicReturn throw.  ChannelClose
rejects the outstanding reply (if any) with a channel-closed error, sends
ChannelCloseOk, rejects each queued RPC in queue order with the same error
(the error variable is `undefined` when there was no outstanding reply) and
calls `cleanup`.  Any other frame is taken as the RPC reply: `this.reply`
is cleared, the head of the pending queue (if any) takes the slot and is
sent, and only then is the original deferred resolved — all within this one
step (channel.js uses synchronous deferreds; src/lib/sync_defer.js is not
in src/, and per the spec, section 4.3, resolution happens synchronously
within the frame-dispatch step, which is what an effect of this step
models).  When `this.reply` is null in the default case, `reply.resolve`
throws a TypeError after the queued send was already performed. -/
def handle (s : Channel) (f : HFrame) : StepRes :=
  match f with
  | .msg mf =>
    let r := msgStep s.handleMessage mf
    ⟨{ s with handleMessage := r.state }, r.emits.map .emitMessage, r.err⟩
  | .basicAck => ⟨s, [], some "Confirmations not implemented"⟩
  | .basicNack => ⟨s, [], some "Confirmations not implemented"⟩
  | .channelClose replyText =>
    match s.reply with
    | some r =>
      let e := some ("Channel closed: " ++ replyText)
      ⟨cleanup s,
       .reject r e :: .sendChannelCloseOk ::
         s.pending.map (fun p => .reject p.reply e),
       none⟩
    | none =>
      ⟨cleanup s,
       .sendChannelCloseOk :: s.pending.map (fun p => .reject p.reply none),
       none⟩
  | .basicCancel => ⟨s, [], some "Unexpected consumer cancel notification"⟩
  | .basicReturn => ⟨s, [], some "I don't handle returns yet"⟩
  | .reply id fields =>
    match s.reply with
    | some r =>
      match s.pending with
      | [] =>
        ⟨{ s with reply := none }, [.resolve r (.reply id fields)], none⟩
      | p :: rest =>
        ⟨{ s with reply := some p.reply, pending := rest },
         [.sendMethod p.method p.fields, .resolve r (.reply id fields)],
         none⟩
    | none =>
      match s.pending with
      | [] =>
        ⟨{ s with reply := none }, [],
         some "TypeError: cannot read resolve of null"⟩
      | p :: rest =>
        ⟨{ s with reply := some p.reply, pending := rest },
         [.sendMethod p.method p.fields],
         some "TypeError: cannot read resolve of null"⟩

/-- The central invariant (channel.js comment, lines 75-77):
`!this.reply -> pending.length == 0`. -/
def Inv (s : Channel) : Prop := s.reply = none → s.pending = []

instance (s : Channel) : Decidable (Inv s) := by
  unfold Inv; infer_instance

/-! ## Frames (frame.js)

Constants come from the generated defs module, which is not in src/.
Modelled from the spec: section 6 fixes the frame types
(1=METHOD, 2=HEADER, 3=BODY, 8=HEARTBEAT) and a fixed frame-end sentinel
octet, which is 206 in AMQP 0-9-1. -/

def FRAME_METHOD : Nat := 1
def FRAME_HEADER : Nat := 2
def FRAME_BODY : Nat := 3
def HEARTBEAT : Nat := 8
def FRAME_END : Nat := 206

/-- Constant `FRAME_OVERHEAD` (frame.js line 33). -/
def FRAME_OVERHEAD : Nat := 8

/-- A successful match of `framePattern`
(`type:8, channel:16, size:32, payload:size/binary, FRAME_END, rest/binary`). -/
structure ParsedFrame where
  type : Nat
  channel : Nat
  size : Nat
  payload : Bytes
  rest : Bytes
deriving Repr, DecidableEq

/-- The bitsyntax pattern `framePattern` (frame.js lines 98-99): reads the
one-byte type, two-byte channel and four-byte size (big-endian), takes
`size` payload bytes, and requires the next octet to be FRAME_END.  Any
failure — the buffer being too short or the end octet not matching — makes
the whole pattern fail, returning no match (`false` in JavaScript); the two
failures are indistinguishable to the caller. -/
def framePattern (buf : Bytes) : Option ParsedFrame :=
  match buf with
  | t :: c1 :: c2 :: s1 :: s2 :: s3 :: s4 :: tl =>
    let size := ((s1 * 256 + s2) * 256 + s3) * 256 + s4
    match tl.drop size with
    | e :: rest =>
      if e = FRAME_END then
        some ⟨t, c1 * 256 + c2, size, tl.take size, rest⟩
      else none
    | [] => none
  | _ => none

/-- A decoded frame, as returned by `decodeFrame` (frame.js lines 126-149).
The method and header payload parses via `methodPattern`/`headerPattern`
stop at the generated registry boundary (`methodFor`, `propertiesFor` are
in the defs module, not in src/): we keep the numeric id and the raw
remainder bytes.  `undefinedValue` is the JavaScript `undefined` produced
by the bare `return ;` of the FRAME_BODY case. -/
inductive Decoded where
  | method (channel : Nat) (idAndArgs : Option (Nat × Bytes))
  | header (channel : Nat) (cls : Nat) (weight : Nat) (size : Nat)
      (flagsAndFields : Bytes)
  | undefinedValue
  | heartbeat
deriving Repr, DecidableEq

/-- The bitsyntax pattern `methodPattern` (`id:32, args/binary`): `none`
models the failed match on a payload shorter than four bytes. -/
def methodPattern (payload : Bytes) : Option (Nat × Bytes) :=
  match payload with
  | b1 :: b2 :: b3 :: b4 :: args =>
    some (((b1 * 256 + b2) * 256 + b3) * 256 + b4, args)
  | _ => none

/-- Embedding of `decodeFrame` (frame.js lines 126-149).  For a BODY frame the source is
`return ; // %%% FIXME` — the JavaScript `undefined`.  An unknown type
throws.  The header case follows `headerPattern`
(`class:16, _weight:16, size:64, flagsAndfields/binary`); for brevity we
require the fixed fields to be present and take the 64-bit size as already
split out (no claim exercises a short header payload). -/
def decodeFrame (f : ParsedFrame) : Except String Decoded :=
  if f.type = FRAME_METHOD then
    .ok (.method f.channel (methodPattern f.payload))
  else if f.type = FRAME_HEADER then
    match f.payload with
    | k1 :: k2 :: w1 :: w2 :: s1 :: s2 :: s3 :: s4 :: s5 :: s6 :: s7 :: s8 :: ff =>
      .ok (.header f.channel (k1 * 256 + k2) (w1 * 256 + w2)
        (((((((s1 * 256 + s2) * 256 + s3) * 256 + s4) * 256 + s5) * 256
          + s6) * 256 + s7) * 256 + s8) ff)
    | _ => .error "header payload too short"
  else if f.type = FRAME_BODY then
    .ok .undefinedValue
  else if f.type = HEARTBEAT then
    .ok .heartbeat
  else
    .error ("Unknown frame type " ++ toString f.type)

/-- The receive side of `Frames` (frame.js lines 47-51): `this.rest` is the
unconsumed buffer, and `incoming` lists the chunks the stream will return
from successive `read()` calls, ending with `read()` returning null. -/
structure FramesState where
  rest : Bytes
  incoming : List Bytes
deriving Repr, DecidableEq

/-- Embedding of `F.recvFrame` (frame.js lines 102-119): try `framePattern` on the
buffered rest; on no match, read from the stream — if the read returns
null, return `false` (`none` here: no frame yet, wait for more bytes),
otherwise append the chunk and retry; on a match, keep the remainder and
return `decodeFrame` of the frame. -/
def recvFrameAux : List Bytes → Bytes → FramesState × Option (Except String Decoded)
  | incoming, rest =>
    match framePattern rest with
    | some fr => (⟨fr.rest, incoming⟩, some (decodeFrame fr))
    | none =>
      match incoming with
      | [] => (⟨rest, []⟩, none)
      | chunk :: more => recvFrameAux more (rest ++ chunk)

/-- Entry point, packaging the `Frames` receive state. -/
def recvFrame (st : FramesState) : FramesState × Option (Except String Decoded) :=
  recvFrameAux st.incoming st.rest

/-- Frames written by the send side, at the granularity the claims need. -/
inductive Wire where
  | methodFrame (channel : Nat) (method : Nat)
  | headerFrame (channel : Nat) (header : Nat)
  | bodyFrame (channel : Nat) (payload : Bytes)
deriving Repr, DecidableEq

/-- Embedding of `makeBodyFrame` (frame.js lines 94-96): a BODY frame for the channel
with the given payload (`size` is `payload.length` by construction). -/
def makeBodyFrame (channel : Nat) (payload : Bytes) : Wire :=
  .bodyFrame channel payload

/-- Embedding of `F.sendContent` (frame.js lines 70-86).  It writes the method frame and
the header frame, then runs the body-splitting loop
`for (var offset = 0; i < body.length; offset += maxBody)`.  The loop
condition reads the variable `i`, which is declared nowhere in the module,
so evaluating the condition throws a ReferenceError before any iteration:
no body frame is ever written, for every body and frameMax. -/
def sendContent (channel : Nat) (method : Nat) (header : Nat)
    (_body : Bytes) (_frameMax : Nat) : List Wire × Option String :=
  ([.methodFrame channel method, .headerFrame channel header],
   some "ReferenceError: i is not defined")

/-! ## The headers computation in `C.publish` (channel.js lines 504-556)

To state that `publish` does not mutate the object the caller passed as
`params.headers`, objects live in a small store addressed by reference;
`publish` either allocates a fresh object (the `params.CC || params.BCC`
branch) or passes the caller's reference through untouched. -/

/-- A JavaScript value stored under a header key: `undefined`, an array of
strings (what `convertCC` produces), or an opaque pre-existing value. -/
inductive JVal where
  | undef
  | strArr (xs : List String)
  | val (tag : Nat)
deriving Repr, DecidableEq

/-- A JavaScript object as an ordered list of key/value properties (a JS
object has no duplicate keys; assignment overwrites in place or appends). -/
abbrev HObj := List (String × JVal)

/-- Property assignment `o[k] = v`. -/
def setKey (o : HObj) (k : String) (v : JVal) : HObj :=
  if o.any (fun p => p.1 = k) then
    o.map (fun p => if p.1 = k then (k, v) else p)
  else o ++ [(k, v)]

/-- The `for (var k in params.headers) headers[k] = params.headers[k]` copy
loop, starting from the fresh `{}`. -/
def copyObj (o : HObj) : HObj :=
  o.foldl (fun acc p => setKey acc p.1 p.2) []

/-- The value passed as `params.CC` / `params.BCC`: absent (`undefined`),
an array of strings, or a single value (coerced with `String(cc)`, so
modelled as already a string). -/
inductive CCArg where
  | undef
  | arr (xs : List String)
  | single (s : String)
deriving Repr, DecidableEq

/-- JavaScript truthiness of a `CCArg`, as tested by
`if (params.CC || params.BCC)`: `undefined` is falsy, an array (even empty)
is truthy, a string is truthy unless empty. -/
def CCArg.truthy : CCArg → Bool
  | .undef => false
  | .arr _ => true
  | .single s => decide (s ≠ "")

/-- Embedding of `convertCC` (channel.js lines 509-517): `undefined` stays `undefined`,
an array is mapped with `String` (identity on strings), anything else
becomes a one-element array of its string coercion. -/
def convertCC : CCArg → JVal
  | .undef => .undef
  | .arr xs => .strArr xs
  | .single s => .strArr [s]

/-- The object store: addresses are indices, allocation appends. -/
structure Store where
  objs : List HObj
deriving Repr, DecidableEq

def Store.get (st : Store) (r : Nat) : HObj := (st.objs.get? r).getD []

def Store.alloc (st : Store) (o : HObj) : Store × Nat :=
  (⟨st.objs ++ [o]⟩, st.objs.length)

/-- The headers computation of `C.publish` (channel.js lines 526-533): if
`params.CC || params.BCC` is truthy, allocate a fresh `{}`, copy every
property of `params.headers` into it, then assign `headers.CC` and
`headers.BCC` (assigning the JavaScript `undefined` when the corresponding
parameter is absent); otherwise the caller's object itself is used.
Returns the updated store and the reference placed into the sent
`properties.headers`. -/
def publishHeaders (st : Store) (paramsHeaders : Nat) (cc bcc : CCArg) :
    Store × Nat :=
  if cc.truthy || bcc.truthy then
    let h := copyObj (st.get paramsHeaders)
    let h := setKey h "CC" (convertCC cc)
    let h := setKey h "BCC" (convertCC bcc)
    st.alloc h
  else (st, paramsHeaders)

/-- Buffers accumulated after feeding the chunk list `cs` to the `content`
state whose `buffers` local held `bufs`: every chunk is pushed in order
(the first push turns `null` into a fresh array). -/
def pushChunks (bufs : Option (List Bytes)) (cs : List Bytes) :
    Option (List Bytes) :=
  match cs with
  | [] => bufs
  | _ :: _ => some (bufs.getD [] ++ cs)

/-! ## Lemmas about the reassembly trampoline -/

theorem bodyLen_nil : bodyLen [] = 0 := rfl

theorem bodyLen_cons (c : Bytes) (cs : List Bytes) :
    bodyLen (c :: cs) = (c.length : Int) + bodyLen cs := by
  simp [bodyLen]

theorem bodyLen_nonneg (cs : List Bytes) : 0 ≤ bodyLen cs :=
  Int.natCast_nonneg _

theorem bodyLen_pos (c : Bytes) (cs : List Bytes)
    (hall : ∀ x ∈ c :: cs, x ≠ []) : 0 < bodyLen (c :: cs) := by
  have hc : c ≠ [] := hall c (List.mem_cons_self c cs)
  have hlen : 0 < c.length := List.length_pos.mpr hc
  have := bodyLen_nonneg cs
  rw [bodyLen_cons]
  omega

theorem bodyLen_eq_length_flatten (cs : List Bytes) :
    bodyLen cs = (cs.flatten.length : Int) := by
  simp [bodyLen]

theorem msgStep_body_mid (df pf : Nat) (rem : Int)
    (bs : Option (List Bytes)) (c : Bytes)
    (h0 : rem - (c.length : Int) ≠ 0) (h1 : ¬ rem - (c.length : Int) < 0) :
    msgStep (.content df pf rem bs) (.body c)
      = ⟨.content df pf (rem - (c.length : Int)) (some (bs.getD [] ++ [c])),
         [], none⟩ := by
  cases bs <;> simp [msgStep, h0, h1]

theorem msgStep_body_final_some (df pf : Nat) (rem : Int)
    (bs : List Bytes) (c : Bytes) (h0 : rem - (c.length : Int) = 0) :
    msgStep (.content df pf rem (some bs)) (.body c)
      = ⟨.unexpected, [⟨df, pf, .concat (bs ++ [c])⟩], none⟩ := by
  simp [msgStep, h0]

theorem msgStep_body_final_none (df pf : Nat) (rem : Int) (c : Bytes)
    (h0 : rem - (c.length : Int) = 0) :
    msgStep (.content df pf rem none) (.body c)
      = ⟨.unexpected, [⟨df, pf, .single c⟩], none⟩ := by
  simp [msgStep, h0]

theorem msgStep_body_over (df pf : Nat) (rem : Int)
    (bs : Option (List Bytes)) (c : Bytes)
    (h1 : rem - (c.length : Int) < 0) :
    msgStep (.content df pf rem bs) (.body c)
      = ⟨.content df pf (rem - (c.length : Int)) bs, [],
         some "Too much content sent!"⟩ := by
  have h0 : rem - (c.length : Int) ≠ 0 := by omega
  cases bs <;> simp [msgStep, h0, h1]

theorem runMsg_prime (df pf : Nat) (size : Int) (fs : List MFrame) :
    runMsg .unexpected (.deliver df :: .props pf size :: fs)
      = runMsg (.content df pf size none) fs := by
  simp [runMsg, msgStep]

theorem pushChunks_cons (bufs : Option (List Bytes)) (c : Bytes)
    (cs : List Bytes) :
    pushChunks (some (bufs.getD [] ++ [c])) cs = pushChunks bufs (c :: cs) := by
  cases cs <;> simp [pushChunks]

theorem runBody_concat (df pf : Nat) :
    ∀ (cs bs : List Bytes), cs ≠ [] → (∀ c ∈ cs, c ≠ []) →
      runMsg (.content df pf (bodyLen cs) (some bs)) (cs.map .body)
        = ⟨.unexpected, [⟨df, pf, .concat (bs ++ cs)⟩], none⟩ := by
  intro cs
  induction cs with
  | nil => intro bs h _; exact absurd rfl h
  | cons c rest ih =>
    intro bs _ hall
    cases rest with
    | nil =>
      have h0 : bodyLen [c] - (c.length : Int) = 0 := by
        rw [bodyLen_cons, bodyLen_nil]; ring
      simp [runMsg, msgStep_body_final_some df pf _ bs c h0]
    | cons c2 rest2 =>
      have hpos : 0 < bodyLen (c2 :: rest2) :=
        bodyLen_pos c2 rest2 (fun x hx => hall x (List.mem_cons_of_mem c hx))
      have heq : bodyLen (c :: c2 :: rest2) - (c.length : Int)
          = bodyLen (c2 :: rest2) := by
        rw [bodyLen_cons]; ring
      have h0 : bodyLen (c :: c2 :: rest2) - (c.length : Int) ≠ 0 := by omega
      have h1 : ¬ bodyLen (c :: c2 :: rest2) - (c.length : Int) < 0 := by omega
      have hstep := msgStep_body_mid df pf (bodyLen (c :: c2 :: rest2))
        (some bs) c h0 h1
      rw [List.map_cons, runMsg, hstep]
      simp only [Option.getD_some, heq]
      rw [ih (bs ++ [c]) (by simp)
        (fun x hx => hall x (List.mem_cons_of_mem c hx))]
      simp

theorem runBody_single (df pf : Nat) (c : Bytes) :
    runMsg (.content df pf (bodyLen [c]) none) [MFrame.body c]
      = ⟨.unexpected, [⟨df, pf, .single c⟩], none⟩ := by
  have h0 : bodyLen [c] - (c.length : Int) = 0 := by
    rw [bodyLen_cons, bodyLen_nil]; ring
  simp [runMsg, msgStep_body_final_none df pf _ c h0]

theorem runBody_multi (df pf : Nat) (c c2 : Bytes) (rest : List Bytes)
    (hall : ∀ x ∈ c :: c2 :: rest, x ≠ []) :
    runMsg (.content df pf (bodyLen (c :: c2 :: rest)) none)
        ((c :: c2 :: rest).map .body)
      = ⟨.unexpected, [⟨df, pf, .concat (c :: c2 :: rest)⟩], none⟩ := by
  have hpos : 0 < bodyLen (c2 :: rest) :=
    bodyLen_pos c2 rest (fun x hx => hall x (List.mem_cons_of_mem c hx))
  have heq : bodyLen (c :: c2 :: rest) - (c.length : Int)
      = bodyLen (c2 :: rest) := by
    rw [bodyLen_cons]; ring
  have h0 : bodyLen (c :: c2 :: rest) - (c.length : Int) ≠ 0 := by omega
  have h1 : ¬ bodyLen (c :: c2 :: rest) - (c.length : Int) < 0 := by omega
  have hstep := msgStep_body_mid df pf (bodyLen (c :: c2 :: rest)) none c h0 h1
  rw [List.map_cons, runMsg, hstep]
  simp only [Option.getD_none, List.nil_append, heq]
  rw [runBody_concat df pf (c2 :: rest) [c] (by simp)
    (fun x hx => hall x (List.mem_cons_of_mem c hx))]
  simp

theorem runBody_under (df pf : Nat) :
    ∀ (cs : List Bytes) (rem : Int) (bufs : Option (List Bytes)),
      bodyLen cs < rem →
      runMsg (.content df pf rem bufs) (cs.map .body)
        = ⟨.content df pf (rem - bodyLen cs) (pushChunks bufs cs), [], none⟩ := by
  intro cs
  induction cs with
  | nil =>
    intro rem bufs _
    simp [runMsg, pushChunks, bodyLen_nil]
  | cons c rest ih =>
    intro rem bufs h
    rw [bodyLen_cons] at h
    have hnn := bodyLen_nonneg rest
    have h0 : rem - (c.length : Int) ≠ 0 := by omega
    have h1 : ¬ rem - (c.length : Int) < 0 := by omega
    have hstep := msgStep_body_mid df pf rem bufs c h0 h1
    rw [List.map_cons, runMsg, hstep]
    simp only []
    rw [ih (rem - (c.length : Int)) (some (bufs.getD [] ++ [c])) (by omega)]
    rw [pushChunks_cons]
    have : rem - (c.length : Int) - bodyLen rest = rem - bodyLen (c :: rest) := by
      rw [bodyLen_cons]; ring
    simp [this]

theorem runBody_over (df pf : Nat) :
    ∀ (pre : List Bytes) (rem : Int) (bufs : Option (List Bytes))
      (c : Bytes) (post : List Bytes),
      bodyLen pre < rem → rem < bodyLen pre + (c.length : Int) →
      runMsg (.content df pf rem bufs) ((pre ++ c :: post).map .body)
        = ⟨.content df pf (rem - bodyLen pre - (c.length : Int))
             (pushChunks bufs pre), [], some "Too much content sent!"⟩ := by
  intro pre
  induction pre with
  | nil =>
    intro rem bufs c post _ h2
    rw [bodyLen_nil] at h2
    have hneg : rem - (c.length : Int) < 0 := by omega
    have hstep := msgStep_body_over df pf rem bufs c hneg
    rw [List.nil_append, List.map_cons, runMsg, hstep]
    simp [pushChunks, bodyLen_nil]
  | cons p pre ih =>
    intro rem bufs c post h1 h2
    rw [bodyLen_cons] at h1 h2
    have hnn := bodyLen_nonneg pre
    have h0 : rem - (p.length : Int) ≠ 0 := by omega
    have hge : ¬ rem - (p.length : Int) < 0 := by omega
    have hstep := msgStep_body_mid df pf rem bufs p h0 hge
    rw [List.cons_append, List.map_cons, runMsg, hstep]
    simp only []
    rw [ih (rem - (p.length : Int)) (some (bufs.getD [] ++ [p])) c post
      (by omega) (by omega)]
    rw [pushChunks_cons]
    have : rem - (p.length : Int) - bodyLen pre - (c.length : Int)
        = rem - bodyLen (p :: pre) - (c.length : Int) := by
      rw [bodyLen_cons]; ring
    simp [this]

/-! ## Lemmas about the publish headers copy -/

theorem setKey_of_not_mem (o : HObj) (k : String) (v : JVal)
    (h : ∀ p ∈ o, p.1 ≠ k) : setKey o k v = o ++ [(k, v)] := by
  unfold setKey
  rw [if_neg]
  simp only [List.any_eq_true, decide_eq_true_eq, not_exists, not_and]
  exact h

theorem copyObj_aux (o : HObj) : ∀ acc : HObj,
    (o.map Prod.fst).Nodup → (∀ p ∈ o, ∀ q ∈ acc, q.1 ≠ p.1) →
    o.foldl (fun a p => setKey a p.1 p.2) acc = acc ++ o := by
  induction o with
  | nil => intro acc _ _; simp
  | cons p o ih =>
    intro acc hnd hdis
    simp only [List.foldl_cons]
    have hset : setKey acc p.1 p.2 = acc ++ [p] := by
      exact setKey_of_not_mem acc p.1 p.2
        (fun q hq => hdis p (List.mem_cons_self p o) q hq)
    rw [hset, ih (acc ++ [p]) (by simpa using (List.nodup_cons.mp (by simpa using hnd)).2)]
    · simp
    · intro r hr q hq
      rcases List.mem_append.mp hq with hq | hq
      · exact hdis r (List.mem_cons_of_mem p hr) q hq
      · have hqp : q = p := by simpa using hq
        have hnotmem : p.1 ∉ o.map Prod.fst :=
          (List.nodup_cons.mp (by simpa using hnd)).1
        intro hqr
        rw [hqp] at hqr
        exact hnotmem (by rw [hqr]; exact List.mem_map_of_mem Prod.fst hr)

theorem copyObj_eq_self (o : HObj) (hnd : (o.map Prod.fst).Nodup) :
    copyObj o = o := by
  unfold copyObj
  rw [copyObj_aux o [] hnd (by simp)]
  simp

/-! ## Claim theorems -/

/-- C1: if the invariant `reply == null -> pending.length == 0` holds before
an operation, it holds after every `sendOrEnqueue` and after every `handle`
(the statement holds for all outcomes, in particular for all completed
ones); moreover `sendOrEnqueue` with an empty reply slot sends immediately
without enqueueing, and `handle`, upon clearing the reply slot on a reply
frame, immediately dequeues and sends the head of a non-empty pending
queue, whose reply takes the slot. -/
theorem C1_reply_pending_invariant (s : Channel) (hInv : Inv s) :
    (∀ m fl rp, Inv (sendOrEnqueue s m fl rp).state) ∧
    (∀ f, Inv (handle s f).state) ∧
    (s.reply = none → ∀ m fl rp,
      sendOrEnqueue s m fl rp
        = ⟨{ s with reply := some rp }, [.sendMethod m fl], none⟩) ∧
    (∀ r id fields p rest, s.reply = some r → s.pending = p :: rest →
      (handle s (.reply id fields)).state.reply = some p.reply ∧
      (handle s (.reply id fields)).state.pending = rest ∧
      (handle s (.reply id fields)).effects
        = [.sendMethod p.method p.fields, .resolve r (.reply id fields)]) := by
  refine ⟨?_, ?_, ?_, ?_⟩
  · intro m fl rp
    cases hr : s.reply with
    | none =>
      have hp : s.pending = [] := hInv hr
      simp [sendOrEnqueue, hr, hp, Inv]
    | some v =>
      simp [sendOrEnqueue, hr, Inv]
  · intro f
    cases f with
    | msg mf => simpa [handle, Inv] using hInv
    | basicAck => simpa [handle, Inv] using hInv
    | basicNack => simpa [handle, Inv] using hInv
    | channelClose t =>
      cases hr : s.reply <;> simp [handle, hr, cleanup, Inv]
    | basicCancel => simpa [handle, Inv] using hInv
    | basicReturn => simpa [handle, Inv] using hInv
    | reply id fields =>
      cases hr : s.reply with
      | none =>
        cases hp : s.pending with
        | nil => simp [handle, hr, hp, Inv]
        | cons p rest => simp [handle, hr, hp, Inv]
      | some r =>
        cases hp : s.pending with
        | nil =>
          have hp0 : s.pending = [] := hp
          simp [handle, hr, hp, Inv, hp0]
        | cons p rest => simp [handle, hr, hp, Inv]
  · intro hr m fl rp
    have hp : s.pending = [] := hInv hr
    simp [sendOrEnqueue, hr, hp]
  · intro r id fields p rest hr hp
    simp [handle, hr, hp]

/-- C1 witness: a concrete channel with an outstanding RPC and one queued
request satisfies the invariant, and the invariant still holds after
handling a reply frame. -/
theorem C1_reply_pending_invariant_witness :
    Inv ⟨some 5, [⟨1, 2, 3⟩], .unexpected⟩ ∧
    Inv (handle ⟨some 5, [⟨1, 2, 3⟩], .unexpected⟩ (.reply 40 0)).state ∧
    sendOrEnqueue ⟨none, [], .unexpected⟩ 7 8 9
      = ⟨⟨some 9, [], .unexpected⟩, [.sendMethod 7 8], none⟩ :=
  ⟨by decide,
   (C1_reply_pending_invariant ⟨some 5, [⟨1, 2, 3⟩], .unexpected⟩
     (by decide)).2.1 (.reply 40 0),
   (C1_reply_pending_invariant ⟨none, [], .unexpected⟩
     (by decide)).2.2.1 rfl 7 8 9⟩

/-- C2: a frame that is neither message-related nor a recognised
notification is treated as the reply to the outstanding RPC.  The reply
slot is cleared; if the pending queue is non-empty its head is dequeued,
its reply occupies the slot and it is sent, and the `resolve` of the
original reply comes after that send in the effect list of this same
`handle` step — the embedding performs all effects of one step within one
dispatch step, matching the synchronous deferreds the source relies on. -/
theorem C2_reply_dispatch (s : Channel) (r id fields : Nat)
    (h : s.reply = some r) :
    (s.pending = [] → handle s (.reply id fields)
       = ⟨{ s with reply := none }, [.resolve r (.reply id fields)], none⟩) ∧
    (∀ p rest, s.pending = p :: rest → handle s (.reply id fields)
       = ⟨{ s with reply := some p.reply, pending := rest },
          [.sendMethod p.method p.fields, .resolve r (.reply id fields)],
          none⟩) := by
  constructor
  · intro hp
    simp [handle, h, hp]
  · intro p rest hp
    simp [handle, h, hp]

/-- C2 witness: concrete dispatch of a reply with one queued RPC. -/
theorem C2_reply_dispatch_witness :
    handle ⟨some 5, [⟨1, 2, 3⟩], .unexpected⟩ (.reply 40 0)
      = ⟨⟨some 3, [], .unexpected⟩,
         [.sendMethod 1 2, .resolve 5 (.reply 40 0)], none⟩ :=
  (C2_reply_dispatch ⟨some 5, [⟨1, 2, 3⟩], .unexpected⟩ 5 40 0 rfl).2
    ⟨1, 2, 3⟩ [] rfl

/-- C5: on a received ChannelClose, the channel rejects the in-flight reply
(if any) with a channel-closed error, sends ChannelCloseOk, and rejects
every queued pending RPC with the same error, in the order the entries sit
in the queue — which is enqueue order, since `sendOrEnqueue` appends at the
tail.  Under the invariant, an empty reply slot means nothing to reject. -/
theorem C5_remote_close (s : Channel) (replyText : String) (hInv : Inv s) :
    (∀ r, s.reply = some r → handle s (.channelClose replyText)
       = ⟨⟨none, [], .unexpected⟩,
          .reject r (some ("Channel closed: " ++ replyText)) ::
            .sendChannelCloseOk ::
            s.pending.map (fun p =>
              .reject p.reply (some ("Channel closed: " ++ replyText))),
          none⟩) ∧
    (s.reply = none → handle s (.channelClose replyText)
       = ⟨⟨none, [], .unexpected⟩, [.sendChannelCloseOk], none⟩) := by
  constructor
  · intro r hr
    simp [handle, hr, cleanup]
  · intro hr
    have hp : s.pending = [] := hInv hr
    simp [handle, hr, hp, cleanup]

/-- C5 witness: a remote close with two queued RPCs rejects the in-flight
reply first, then rejects the queued ones in enqueue order. -/
theorem C5_remote_close_witness :
    handle ⟨some 5, [⟨1, 2, 3⟩, ⟨4, 5, 6⟩], .unexpected⟩ (.channelClose "boom")
      = ⟨⟨none, [], .unexpected⟩,
         [.reject 5 (some "Channel closed: boom"),
          .sendChannelCloseOk,
          .reject 3 (some "Channel closed: boom"),
          .reject 6 (some "Channel closed: boom")], none⟩ :=
  (C5_remote_close ⟨some 5, [⟨1, 2, 3⟩, ⟨4, 5, 6⟩], .unexpected⟩ "boom"
    (by decide)).1 5 rfl

/-- C9: contrary to the claim, handling BasicAck or BasicNack is not a
confirmation: `C.handle` throws "Confirmations not implemented" for both,
with no effect performed and no state change, for every channel state. -/
theorem C9_ack_nack_throw (s : Channel) :
    handle s .basicAck = ⟨s, [], some "Confirmations not implemented"⟩ ∧
    handle s .basicNack = ⟨s, [], some "Confirmations not implemented"⟩ :=
  ⟨rfl, rfl⟩

/-- C3: a delivery split into chunks whose lengths sum exactly to the
declared bodySize (a split into N consecutive slices: every slice
non-empty, except that a whole body may arrive as one possibly-empty
frame) emits exactly one message, whose content is byte-for-byte the
concatenation of the chunks in arrival order; when N = 1 the content is
the single frame payload itself (`single`), with no concatenation buffer
involved. -/
theorem C3_reassembly_concat (df pf : Nat) (chunks : List Bytes)
    (hne : chunks ≠ [])
    (hsplit : chunks.length = 1 ∨ ∀ c ∈ chunks, c ≠ []) :
    ∃ C : Content,
      runMsg .unexpected
          (.deliver df :: .props pf (bodyLen chunks) :: chunks.map .body)
        = ⟨.unexpected, [⟨df, pf, C⟩], none⟩ ∧
      C.bytes = chunks.flatten ∧
      (chunks.length = 1 → C = .single chunks.flatten) := by
  rw [runMsg_prime]
  cases chunks with
  | nil => exact absurd rfl hne
  | cons c rest =>
    cases rest with
    | nil =>
      refine ⟨.single c, ?_, by simp [Content.bytes], by simp⟩
      simpa using runBody_single df pf c
    | cons c2 rest2 =>
      have hall : ∀ x ∈ c :: c2 :: rest2, x ≠ [] := by
        rcases hsplit with h1 | h2
        · simp at h1
        · exact h2
      refine ⟨.concat (c :: c2 :: rest2), ?_, by simp [Content.bytes], by simp⟩
      exact runBody_multi df pf c c2 rest2 hall

/-- C3 witness: a three-byte body split 1+2 across two frames. -/
theorem C3_reassembly_concat_witness :
    ∃ C : Content,
      runMsg .unexpected
          (.deliver 1 :: .props 2 (bodyLen [[9], [8, 7]]) ::
            ([[9], [8, 7]] : List Bytes).map .body)
        = ⟨.unexpected, [⟨1, 2, C⟩], none⟩ ∧
      C.bytes = ([[9], [8, 7]] : List Bytes).flatten ∧
      (([[9], [8, 7]] : List Bytes).length = 1
        → C = .single ([[9], [8, 7]] : List Bytes).flatten) :=
  C3_reassembly_concat 1 2 [[9], [8, 7]] (by decide)
    (Or.inr (by decide))

/-- C6: during reassembly, a body frame that takes the running sum past
the declared bodySize (the captured `remaining` goes negative) raises
"Too much content sent!" and emits no message for that delivery; body
frames summing to less than the declared bodySize leave the machine in
the body-accumulating state with the bytes buffered and emit nothing. -/
theorem C6_overrun_underrun (df pf : Nat) (size : Int) :
    (∀ (pre : List Bytes) (c : Bytes) (post : List Bytes),
      bodyLen pre < size → size < bodyLen pre + (c.length : Int) →
      runMsg .unexpected
          (.deliver df :: .props pf size :: (pre ++ c :: post).map .body)
        = ⟨.content df pf (size - bodyLen pre - (c.length : Int))
             (pushChunks none pre), [], some "Too much content sent!"⟩) ∧
    (∀ chunks : List Bytes, bodyLen chunks < size →
      runMsg .unexpected
          (.deliver df :: .props pf size :: chunks.map .body)
        = ⟨.content df pf (size - bodyLen chunks) (pushChunks none chunks),
           [], none⟩) := by
  constructor
  · intro pre c post h1 h2
    rw [runMsg_prime]
    exact runBody_over df pf pre size none c post h1 h2
  · intro chunks h
    rw [runMsg_prime]
    exact runBody_under df pf chunks size none h

/-- C6 witness: declared size 3; frames of 1 then 3 bytes overrun and
raise the error with nothing emitted; a single 1-byte frame leaves the
machine awaiting more body. -/
theorem C6_overrun_underrun_witness :
    runMsg .unexpected
        (.deliver 1 :: .props 2 3 :: ([[9], [8, 7, 6]] : List Bytes).map .body)
      = ⟨.content 1 2 (-1) (pushChunks none [[9]]), [],
         some "Too much content sent!"⟩ ∧
    runMsg .unexpected (.deliver 1 :: .props 2 3 :: ([[9]] : List Bytes).map .body)
      = ⟨.content 1 2 2 (pushChunks none [[9]]), [], none⟩ :=
  ⟨(C6_overrun_underrun 1 2 3).1 [[9]] [8, 7, 6] [] (by decide) (by decide),
   (C6_overrun_underrun 1 2 3).2 [[9]] (by decide)⟩

/-- C4: contrary to the claim, `sendContent` writes no body frame at all:
for every channel, method, properties, content and frameMax it writes the
method frame and the header frame, then throws a ReferenceError (the loop
condition reads the undeclared variable `i`), so the content is never
covered by body frames.  The second conjunct evaluates the failing input
from the repository's own publish test, a six-byte body. -/
theorem C4_sendContent_no_body_frames :
    (∀ channel method header body frameMax,
      sendContent channel method header body frameMax
        = ([.methodFrame channel method, .headerFrame channel header],
           some "ReferenceError: i is not defined")) ∧
    (sendContent 1 11 22 [102, 111, 111, 98, 97, 114] 4096).1
        = [.methodFrame 1 11, .headerFrame 1 22] ∧
    ∀ ch pl, Wire.bodyFrame ch pl
        ∉ (sendContent 1 11 22 [102, 111, 111, 98, 97, 114] 4096).1 := by
  refine ⟨fun _ _ _ _ _ => rfl, rfl, ?_⟩
  intro ch pl
  simp [sendContent]

/-- C7 counterexample: the buffer holds a complete envelope — type 8,
channel 0, declared size 0 — whose next octet is 0, not the frame-end
octet 206.  The claim says this must be rejected as a fatal error and
never treated as incomplete input; instead `framePattern` simply fails to
match and `recvFrame` returns `false` (here `none`): the bytes are kept
buffered, waiting for more input, and no error is raised. -/
theorem C7_counterexample :
    framePattern [8, 0, 0, 0, 0, 0, 0, 0] = none ∧
    recvFrame ⟨[8, 0, 0, 0, 0, 0, 0, 0], []⟩
      = (⟨[8, 0, 0, 0, 0, 0, 0, 0], []⟩, none) :=
  ⟨rfl, rfl⟩

/-- C7 amended: an input in which the octet after the declared payload is
not the frame-end octet makes the frame pattern fail to match, and
`recvFrame` (with nothing more to read) treats it exactly like incomplete
data: it returns no frame, keeps the bytes buffered, and raises no error;
only an unknown frame type in a well-delimited frame raises a fatal
error. -/
theorem C7_bad_end_octet_incomplete (t c1 c2 s1 s2 s3 s4 e : Nat)
    (tl rest : Bytes)
    (hdrop : tl.drop (((s1 * 256 + s2) * 256 + s3) * 256 + s4) = e :: rest)
    (hne : e ≠ FRAME_END) :
    framePattern (t :: c1 :: c2 :: s1 :: s2 :: s3 :: s4 :: tl) = none ∧
    recvFrame ⟨t :: c1 :: c2 :: s1 :: s2 :: s3 :: s4 :: tl, []⟩
      = (⟨t :: c1 :: c2 :: s1 :: s2 :: s3 :: s4 :: tl, []⟩, none) := by
  have h1 : framePattern (t :: c1 :: c2 :: s1 :: s2 :: s3 :: s4 :: tl) = none := by
    simp [framePattern, hdrop, hne]
  exact ⟨h1, by simp [recvFrame, recvFrameAux, h1]⟩

/-- C7 witness: a different malformed buffer — type 1, channel 5, size 0,
end octet 77. -/
theorem C7_bad_end_octet_incomplete_witness :
    framePattern [1, 0, 5, 0, 0, 0, 0, 77] = none ∧
    recvFrame ⟨[1, 0, 5, 0, 0, 0, 0, 77], []⟩
      = (⟨[1, 0, 5, 0, 0, 0, 0, 77], []⟩, none) :=
  C7_bad_end_octet_incomplete 1 0 5 0 0 0 0 77 [77] [] rfl (by decide)

/-- C8: contrary to the claim, decoding a BODY frame yields the JavaScript
`undefined` (the FRAME_BODY case of `decodeFrame` is a bare `return ;`
marked FIXME), not a ContentBody value carrying the channel and payload —
for every channel, size, payload and remainder, including the concrete
frame of the second conjunct. -/
theorem C8_body_decodes_to_undefined :
    (∀ channel size payload rest,
      decodeFrame ⟨FRAME_BODY, channel, size, payload, rest⟩
        = .ok .undefinedValue) ∧
    decodeFrame ⟨FRAME_BODY, 7, 3, [1, 2, 3], []⟩ = .ok .undefinedValue :=
  ⟨fun _ _ _ _ => rfl, rfl⟩

/-- C10: the headers computation of `publish` never mutates the object the
caller passed as `params.headers`: the object at that reference is
unchanged in the resulting store; and when `params.CC || params.BCC` is
truthy, the reference placed in the outgoing properties is a fresh one
(distinct from the caller's), holding a copy of the caller's headers with
`CC` and `BCC` assigned from `convertCC`. -/
theorem C10_publish_headers_no_mutation (st : Store) (ph : Nat)
    (cc bcc : CCArg) (hph : ph < st.objs.length)
    (hnd : ((st.get ph).map Prod.fst).Nodup) :
    (publishHeaders st ph cc bcc).1.get ph = st.get ph ∧
    ((cc.truthy || bcc.truthy) = true →
      (publishHeaders st ph cc bcc).2 ≠ ph ∧
      (publishHeaders st ph cc bcc).1.get (publishHeaders st ph cc bcc).2
        = setKey (setKey (st.get ph) "CC" (convertCC cc)) "BCC"
            (convertCC bcc)) := by
  cases htr : (cc.truthy || bcc.truthy) with
  | false =>
    simp [publishHeaders, htr]
  | true =>
    have hnew : publishHeaders st ph cc bcc
        = st.alloc (setKey (setKey (copyObj (st.get ph)) "CC" (convertCC cc))
            "BCC" (convertCC bcc)) := by
      simp [publishHeaders, htr]
    rw [hnew, copyObj_eq_self _ hnd]
    refine ⟨?_, fun _ => ⟨by simp [Store.alloc]; omega, ?_⟩⟩
    · simp [Store.alloc, Store.get, List.getElem?_append_left hph]
    · simp [Store.alloc, Store.get, List.getElem?_concat_length]

/-- C10 witness: a store with one headers object `{a: 1}`, CC supplied as
`["x"]`, BCC absent. -/
theorem C10_publish_headers_no_mutation_witness :
    (publishHeaders ⟨[[("a", .val 1)]]⟩ 0 (.arr ["x"]) .undef).1.get 0
        = (⟨[[("a", .val 1)]]⟩ : Store).get 0 ∧
    ((CCArg.truthy (.arr ["x"]) || CCArg.truthy .undef) = true →
      (publishHeaders ⟨[[("a", .val 1)]]⟩ 0 (.arr ["x"]) .undef).2 ≠ 0 ∧
      (publishHeaders ⟨[[("a", .val 1)]]⟩ 0 (.arr ["x"]) .undef).1.get
          (publishHeaders ⟨[[("a", .val 1)]]⟩ 0 (.arr ["x"]) .undef).2
        = setKey (setKey ((⟨[[("a", .val 1)]]⟩ : Store).get 0) "CC"
            (convertCC (.arr ["x"]))) "BCC" (convertCC .undef)) :=
  C10_publish_headers_no_mutation ⟨[[("a", .val 1)]]⟩ 0 (.arr ["x"]) .undef
    (by decide) (by decide)

end AmqpNode
